import Mathlib

/-
Shallow embedding of src/src/main.cpp (ESP32 temperature data logger).

The program samples a DS18B20 sensor, pushes the value to all WebSocket
observers, blocks on an NTP update loop, splits the formatted date at the
first occurrence of the character T, and appends one CSV line to /data.txt
on the SD card.  Arduino strings are modelled as lists of characters; the
unbounded NTP retry loop is modelled with explicit fuel; every run yields
the list of observable events emitted so far (also when the retry loop is
still spinning when the fuel runs out).
-/

namespace TempLog

/-- Characters of an Arduino String value. -/
abbrev Str := List Char

/-- Conversion applied when a C int is passed to an unsigned parameter of
String.substring: reduction modulo two to the thirty-second power. -/
def asU32 (i : Int) : Nat := (i % 4294967296).toNat

/-- Wrap-around subtraction of one on the unsigned result of length(), as in
the expression formattedDate.length() - 1 at main.cpp:149. -/
def u32sub1 (n : Nat) : Nat := (n % 4294967296 + 4294967295) % 4294967296

/-- String.indexOf for a single character: index of the first occurrence,
or minus one when the character does not occur. -/
def indexOfC (c : Char) : Str → Int
  | [] => -1
  | a :: s =>
    if a = c then 0
    else if indexOfC c s < 0 then -1 else indexOfC c s + 1

/-- Arduino String.substring(left, right): out-of-order bounds are swapped,
a left bound at or past the length yields the empty string, the right bound
is clamped to the length, and the half-open slice is returned. -/
def substringU (s : Str) (l r : Nat) : Str :=
  if s.length ≤ min l r then []
  else (s.take (min (max l r) s.length)).drop (min l r)

/-- Observable events of one run: sensor conversions, WebSocket pushes,
NTP attempts and forced re-requests, timestamp resolution, SD appends with
their outcome, serial diagnostics, and the inter-cycle delay. -/
inductive Event where
  | sensorRead (t : Str)
  | broadcast (m : Str)
  | ntpAttempt (ok : Bool)
  | forceUpdate
  | timestampResolved (d t : Str)
  | append (line : Str) (ok : Bool)
  | diag (m : Str)
  | delayMs (n : Nat)
  deriving DecidableEq

/-- The global mutable state of main.cpp: readingID (RTC memory, line 79),
the temperature, formattedDate, dayStamp, timeStamp and dataMessage string
globals, and the content of /data.txt on the SD card (none when the file
does not exist). -/
structure SysState where
  readingID : Int
  temperature : Str
  formattedDate : Str
  dayStamp : Str
  timeStamp : Str
  dataMessage : Str
  file : Option Str
  deriving DecidableEq

/-- Per-cycle environment: the rendered sensor value, the outcome of each
successive timeClient.update() call, the formatted date the NTP client
holds once an update has succeeded, and the SD open/write outcomes for the
append of this cycle. -/
structure CycleEnv where
  temp : Str
  ntpOk : Nat → Bool
  fdate : Str
  openOk : Bool
  writeOk : Bool

/-- Boot-time environment for setup(): SPIFFS mount, SD mount, card
presence, and the open/write outcomes for the one-time header write. -/
structure BootEnv where
  spiffsOk : Bool
  sdOk : Bool
  cardPresent : Bool
  hdrOpenOk : Bool
  hdrWriteOk : Bool
  deriving DecidableEq

/-- Carriage return plus line feed, the record terminator. -/
def crlf : Str := ['\r', '\n']

/-- The header written by setup() at main.cpp:362; note the trailing space
before the terminator, exactly as in the source. -/
def headerStr : Str := "Reading ID, Date, Hour, Temperature \r\n".toList

/-- Decimal rendering of the reading identifier, as String(readingID). -/
def intToStr (i : Int) : Str := (toString i).toList

/-- Index of the first successful update() call at or after index k, with
the given fuel; none when no attempt within the fuel succeeds.  This is the
loop while (!timeClient.update()) timeClient.forceUpdate(); at
main.cpp:134-137. -/
def firstSuccess (ntp : Nat → Bool) : Nat → Nat → Option Nat
  | 0, _ => none
  | f + 1, k => if ntp k then some k else firstSuccess ntp f (k + 1)

/-- Events emitted by f failed update attempts, each followed by the forced
re-request issued in the loop body. -/
def stuckTrace : Nat → List Event
  | 0 => []
  | f + 1 => Event.ntpAttempt false :: Event.forceUpdate :: stuckTrace f

/-- Events of a retry run that fails k times and then succeeds. -/
def retryTrace (k : Nat) : List Event := stuckTrace k ++ [Event.ntpAttempt true]

/-- formattedDate.indexOf of the separator character, main.cpp:145. -/
def splitT (fd : Str) : Int := indexOfC 'T' fd

/-- dayStamp extraction, main.cpp:146: formattedDate.substring(0, splitT). -/
def extractDay (fd : Str) : Str := substringU fd (asU32 0) (asU32 (splitT fd))

/-- timeStamp extraction, main.cpp:149:
formattedDate.substring(splitT + 1, formattedDate.length() - 1). -/
def extractTime (fd : Str) : Str :=
  substringU fd (asU32 (splitT fd + 1)) (u32sub1 fd.length)

/-- The pair of extracted date and time-of-day strings. -/
def splitFD (fd : Str) : Str × Str := (extractDay fd, extractTime fd)

/-- Diagnostic texts printed by appendFile, main.cpp:205-224. -/
def diagOpenAppendFail : Str := "Failed to open file for appending".toList

/-- Diagnostic printed on a successful append. -/
def diagMsgAppended : Str := "Message appended".toList

/-- Diagnostic printed when file.print reports failure in appendFile. -/
def diagAppendFail : Str := "Append failed".toList

/-- appendFile(fs, path, message), main.cpp:205-224: returns the new file
content, the success of the operation, and the emitted events.  Open in
append mode creates the file when absent; an open failure or a failed
print leaves the file unchanged and only emits a diagnostic; no retry and
no fatal error in any branch. -/
def appendFileFn (openOk writeOk : Bool) (file : Option Str) (msg : Str) :
    Option Str × Bool × List Event :=
  if openOk = false then
    (file, false, [Event.append msg false, Event.diag diagOpenAppendFail])
  else if writeOk = true then
    (some (file.getD [] ++ msg), true,
      [Event.append msg true, Event.diag diagMsgAppended])
  else
    (file, false, [Event.append msg false, Event.diag diagAppendFail])

/-- The CSV data line built by logSDCard at main.cpp:163-164:
readingID, dayStamp, timeStamp and temperature joined by commas and
terminated by CRLF. -/
def cycleMsg (id : Int) (day tim temp : Str) : Str :=
  intToStr id ++ ',' :: (day ++ ',' :: (tim ++ ',' :: (temp ++ crlf)))

/-- logSDCard(), main.cpp:161-168: builds dataMessage and appends it. -/
def logSDCardFn (env : CycleEnv) (st : SysState) : SysState × List Event :=
  let msg := cycleMsg st.readingID st.dayStamp st.timeStamp st.temperature
  let r := appendFileFn env.openOk env.writeOk st.file msg
  ({ st with dataMessage := msg, file := r.1 }, r.2.2)

/-- getTimeStamp(), main.cpp:132-153: spins on update()/forceUpdate() until
an update succeeds, then extracts dayStamp and timeStamp from the formatted
date and calls logSDCard.  When no attempt within the fuel succeeds the
result state is none and only the retry events have been emitted. -/
def getTimeStampFn (env : CycleEnv) (fuel : Nat) (st : SysState) :
    Option SysState × List Event :=
  match firstSuccess env.ntpOk fuel 0 with
  | none => (none, stuckTrace fuel)
  | some k =>
    let day := extractDay env.fdate
    let tim := extractTime env.fdate
    let st1 := { st with formattedDate := env.fdate, dayStamp := day,
                         timeStamp := tim }
    let r := logSDCardFn env st1
    (some r.1, retryTrace k ++ Event.timestampResolved day tim :: r.2)

/-- getReadings(), main.cpp:112-124: reads the sensor, immediately pushes
the value to all WebSocket observers via ws.textAll, then calls
getTimeStamp (which in turn calls logSDCard). -/
def getReadingsFn (env : CycleEnv) (fuel : Nat) (st : SysState) :
    Option SysState × List Event :=
  let st1 := { st with temperature := env.temp }
  let r := getTimeStampFn env fuel st1
  (r.1, Event.sensorRead env.temp :: Event.broadcast env.temp :: r.2)

/-- loop(), main.cpp:377-383: one call of getReadings followed by
delay(10000); the delay is reached only when the cycle completes. -/
def loopFn (env : CycleEnv) (fuel : Nat) (st : SysState) :
    Option SysState × List Event :=
  match getReadingsFn env fuel st with
  | (none, evs) => (none, evs)
  | (some st1, evs) => (some st1, evs ++ [Event.delayMs 10000])

/-- n successive invocations of loop(); a cycle stuck in the NTP retry
loop ends the run with result none and the events emitted so far. -/
def runCycles (fuel : Nat) :
    (Nat → CycleEnv) → Nat → SysState → Option SysState × List Event
  | _, 0, st => (some st, [])
  | cenvs, n + 1, st =>
    match loopFn (cenvs 0) fuel st with
    | (none, evs) => (none, evs)
    | (some st1, evs) =>
      let r := runCycles fuel (fun i => cenvs (i + 1)) n st1
      (r.1, evs ++ r.2)

/-- Diagnostic texts printed by writeFile, main.cpp:177-196. -/
def diagOpenWriteFail : Str := "Failed to open file for writing".toList

/-- Diagnostic printed on a successful write. -/
def diagFileWritten : Str := "File written".toList

/-- Diagnostic printed when file.print reports failure in writeFile. -/
def diagWriteFail : Str := "Write failed".toList

/-- writeFile(fs, path, message), main.cpp:177-196: open in write mode
truncates or creates the file; a failed print leaves it empty. -/
def writeFileFn (openOk writeOk : Bool) (file : Option Str) (msg : Str) :
    Option Str × List Event :=
  if openOk = false then (file, [Event.diag diagOpenWriteFail])
  else if writeOk = true then (some msg, [Event.diag diagFileWritten])
  else (some [], [Event.diag diagWriteFail])

/-- Diagnostic printed on a SPIFFS mount failure, main.cpp:293. -/
def diagSpiffsFail : Str := "An Error has occurred while mounting SPIFFS".toList

/-- Diagnostic printed on an SD mount failure, main.cpp:342. -/
def diagMountFail : Str := "Card Mount Failed".toList

/-- Diagnostic printed when no SD card is attached, main.cpp:347. -/
def diagNoCard : Str := "No SD card attached".toList

/-- setup(), main.cpp:286-375, restricted to the state the pipeline reads:
an early return on a SPIFFS mount failure, an SD mount failure, or a
missing card leaves the state unchanged and reports incomplete
initialization; otherwise the header is written when /data.txt is absent
and readingID is incremented once.  The Boolean result records whether
setup ran to completion. -/
def setupFn (benv : BootEnv) (st : SysState) : SysState × Bool × List Event :=
  if benv.spiffsOk = false then (st, false, [Event.diag diagSpiffsFail])
  else if benv.sdOk = false then (st, false, [Event.diag diagMountFail])
  else if benv.cardPresent = false then (st, false, [Event.diag diagNoCard])
  else
    let r :=
      match st.file with
      | none => writeFileFn benv.hdrOpenOk benv.hdrWriteOk st.file headerStr
      | some c => (some c, ([] : List Event))
    ({ st with file := r.1, readingID := st.readingID + 1 }, true, r.2)

/-- The Arduino runtime: setup() runs once and loop() is then invoked
repeatedly, also when setup returned early.  n bounds the number of loop
invocations considered. -/
def runMainN (benv : BootEnv) (cenvs : Nat → CycleEnv) (fuel n : Nat)
    (st0 : SysState) : Option SysState × List Event :=
  let s := setupFn benv st0
  let r := runCycles fuel cenvs n s.1
  (r.1, s.2.2 ++ r.2)

/-- State after a cold boot: readingID is zero (RTC memory cleared by full
power loss), the string globals are empty, and the SD card holds the given
file content (the card itself survives power loss). -/
def coldBootState (card : Option Str) : SysState :=
  { readingID := 0, temperature := [], formattedDate := [], dayStamp := [],
    timeStamp := [], dataMessage := [], file := card }

/-- Recognizer for SD append events. -/
def isAppendEv : Event → Bool
  | Event.append _ _ => true
  | _ => false

/-- Recognizer for timestamp-resolution events. -/
def isResolvedEv : Event → Bool
  | Event.timestampResolved _ _ => true
  | _ => false

/-- Recognizer for WebSocket broadcast events. -/
def isBroadcastEv : Event → Bool
  | Event.broadcast _ => true
  | _ => false

/-- Recognizer for forced NTP re-request events. -/
def isForceUpdateEv : Event → Bool
  | Event.forceUpdate => true
  | _ => false

/-- Recognizer for sensor conversion events. -/
def isSensorReadEv : Event → Bool
  | Event.sensorRead _ => true
  | _ => false

/-- The event at position i of a trace (an arbitrary default off the end). -/
def evAt (evs : List Event) (i : Nat) : Event := evs.getD i (Event.delayMs 0)

/-- Every append event in the trace is preceded by a timestamp-resolution
event. -/
abbrev appendAfterResolve (evs : List Event) : Prop :=
  ∀ i, i < evs.length → isAppendEv (evAt evs i) = true →
    ∃ j, j < i ∧ isResolvedEv (evAt evs j) = true

/-- Every broadcast event in the trace is preceded by a
timestamp-resolution event. -/
abbrev broadcastOnlyAfterResolve (evs : List Event) : Prop :=
  ∀ i, i < evs.length → isBroadcastEv (evAt evs i) = true →
    ∃ j, j < i ∧ isResolvedEv (evAt evs j) = true

/-- Every broadcast event in the trace is preceded by an append event. -/
abbrev broadcastOnlyAfterAppend (evs : List Event) : Prop :=
  ∀ i, i < evs.length → isBroadcastEv (evAt evs i) = true →
    ∃ j, j < i ∧ isAppendEv (evAt evs j) = true

/-- A cycle environment under which the cycle runs to completion with a
successful append: some NTP attempt within the fuel succeeds and the SD
open and write both succeed. -/
abbrev goodCycle (fuel : Nat) (env : CycleEnv) : Prop :=
  (∃ k, k < fuel ∧ env.ntpOk k = true) ∧ env.openOk = true ∧ env.writeOk = true

/-- The concatenation of the n data lines produced by n completed cycles
with a fixed reading identifier. -/
def logLines (id : Int) : (Nat → CycleEnv) → Nat → Str
  | _, 0 => []
  | cenvs, n + 1 =>
    cycleMsg id (extractDay (cenvs 0).fdate) (extractTime (cenvs 0).fdate)
        (cenvs 0).temp
      ++ logLines id (fun i => cenvs (i + 1)) n

/-- The WebSocket text opcode WS_TEXT. -/
def WS_TEXT : Nat := 1

/-- An AwsFrameInfo header as inspected by handleWebSocketMessage. -/
structure FrameInfo where
  final : Bool
  index : Nat
  len : Nat
  opcode : Nat
  deriving DecidableEq

/-- handleWebSocketMessage, main.cpp:242-248: on a final, unfragmented,
complete text frame it calls notifyClients(), which re-broadcasts the
stored temperature via ws.textAll (main.cpp:231-233); the payload bytes
are never inspected. -/
def handleWebSocketMessage (info : FrameInfo) (_data : Str) (len : Nat)
    (st : SysState) : List Event :=
  if info.final = true ∧ info.index = 0 ∧ info.len = len ∧ info.opcode = WS_TEXT
  then [Event.broadcast st.temperature]
  else []

/-- State of a completed cycle right after the timestamp extraction and
before logSDCard runs: the temperature and the three date and time string
globals have been updated. -/
def midState (env : CycleEnv) (st : SysState) : SysState :=
  { st with temperature := env.temp, formattedDate := env.fdate,
            dayStamp := extractDay env.fdate, timeStamp := extractTime env.fdate }

/-- The one data line a completed cycle hands to appendFile. -/
def lineOf (env : CycleEnv) (st : SysState) : Str :=
  cycleMsg st.readingID (extractDay env.fdate) (extractTime env.fdate) env.temp

/-- Concrete rendered temperature used in example runs. -/
def exTemp : Str := "21.50".toList

/-- Concrete NTP formatted date used in example runs. -/
def exFd : Str := "2024-05-06T14:30:00Z".toList

/-- Fully successful cycle environment used in example runs. -/
def exCycleEnv : CycleEnv :=
  { temp := exTemp, ntpOk := fun _ => true, fdate := exFd,
    openOk := true, writeOk := true }

/-- Successful cycle environment with a different sensor reading. -/
def ex2CycleEnv : CycleEnv := { exCycleEnv with temp := "22.00".toList }

/-- Cycle environment whose SD open fails. -/
def failOpenEnv : CycleEnv := { exCycleEnv with openOk := false }

/-- Cycle environment whose NTP update never succeeds. -/
def ntpNeverEnv : CycleEnv := { exCycleEnv with ntpOk := fun _ => false }

/-- Fully successful boot environment. -/
def goodBoot : BootEnv :=
  { spiffsOk := true, sdOk := true, cardPresent := true,
    hdrOpenOk := true, hdrWriteOk := true }

/-- Boot environment whose SPIFFS mount fails. -/
def badBoot : BootEnv := { goodBoot with spiffsOk := false }

/-- State after a successful cold boot on an empty card. -/
def postSetupState : SysState := (setupFn goodBoot (coldBootState none)).1

/-- The header line the specification claims, with no trailing space. -/
def claimedHeaderC6 : Str := "Reading ID, Date, Hour, Temperature\r\n".toList

/-- Frame header of a complete single-frame text message of length 3. -/
def exFrame : FrameInfo := { final := true, index := 0, len := 3, opcode := 1 }

/-- A concrete inbound payload; its content is irrelevant. -/
def exPayload : Str := "abc".toList

/-- Cycle environment whose NTP update succeeds exactly at the third
attempt. -/
def w4Env : CycleEnv := { exCycleEnv with ntpOk := fun k => decide (k = 2) }

/-- A state holding a last known temperature value. -/
def wsState : SysState := { coldBootState none with temperature := exTemp }

/-- getD on an index inside the left part of a concatenation. -/
lemma getD_append_lt {α : Type} (X Y : List α) (i : Nat) (d : α)
    (h : i < X.length) : (X ++ Y).getD i d = X.getD i d := by
  induction X generalizing i with
  | nil => simp at h
  | cons a t ih =>
    cases i with
    | zero => rfl
    | succ n => simpa using ih n (by simpa using h)

/-- getD at the index right after the left part of a concatenation. -/
lemma getD_append_len {α : Type} (X : List α) (r : α) (Y : List α) (d : α) :
    (X ++ r :: Y).getD X.length d = r := by
  induction X with
  | nil => rfl
  | cons a t ih => simpa using ih

/-- getD on an in-range index is a member of the list. -/
lemma getD_mem {α : Type} (l : List α) (i : Nat) (d : α) (h : i < l.length) :
    l.getD i d ∈ l := by
  induction l generalizing i with
  | nil => simp at h
  | cons a t ih =>
    cases i with
    | zero => simp [List.getD]
    | succ n => simpa using Or.inr (ih n (by simpa using h))

/-- Elements of the retry-failure trace. -/
lemma mem_stuckTrace {f : Nat} {e : Event} (h : e ∈ stuckTrace f) :
    e = Event.ntpAttempt false ∨ e = Event.forceUpdate := by
  induction f with
  | zero => simp [stuckTrace] at h
  | succ f ih =>
    simp only [stuckTrace, List.mem_cons] at h
    rcases h with h | h | h
    · exact Or.inl h
    · exact Or.inr h
    · exact ih h

/-- Elements of the retry trace of a run that eventually succeeds. -/
lemma mem_retryTrace {k : Nat} {e : Event} (h : e ∈ retryTrace k) :
    e = Event.ntpAttempt false ∨ e = Event.forceUpdate ∨
      e = Event.ntpAttempt true := by
  simp only [retryTrace, List.mem_append, List.mem_singleton] at h
  rcases h with h | h
  · rcases mem_stuckTrace h with h | h
    · exact Or.inl h
    · exact Or.inr (Or.inl h)
  · exact Or.inr (Or.inr h)

/-- Length of the retry-failure trace. -/
lemma stuckTrace_length (f : Nat) : (stuckTrace f).length = 2 * f := by
  induction f with
  | zero => rfl
  | succ f ih => simp [stuckTrace, ih]; omega

/-- Length of the successful retry trace. -/
lemma retryTrace_length (k : Nat) : (retryTrace k).length = 2 * k + 1 := by
  simp [retryTrace, stuckTrace_length]

/-- Number of forced re-requests in the retry-failure trace. -/
lemma countP_force_stuckTrace (f : Nat) :
    List.countP isForceUpdateEv (stuckTrace f) = f := by
  induction f with
  | zero => rfl
  | succ f ih => simp [stuckTrace, List.countP_cons, ih, isForceUpdateEv]

/-- Number of forced re-requests in the successful retry trace. -/
lemma countP_force_retryTrace (k : Nat) :
    List.countP isForceUpdateEv (retryTrace k) = k := by
  simp [retryTrace, List.countP_append, countP_force_stuckTrace,
    List.countP_cons, isForceUpdateEv]

/-- A trace without append events trivially satisfies the ordering
property. -/
lemma appendAfterResolve_of_no_append (evs : List Event)
    (h : ∀ e ∈ evs, isAppendEv e = false) : appendAfterResolve evs := by
  intro i hi happ
  have hm := getD_mem evs i (Event.delayMs 0) hi
  rw [show evs.getD i (Event.delayMs 0) = evAt evs i from rfl] at hm
  rw [h _ hm] at happ
  cases happ

/-- In a trace made of an append-free part, one resolution event, and any
tail, every append event is preceded by the resolution event. -/
lemma appendAfterResolve_split (X Y : List Event) (r : Event)
    (hX : ∀ e ∈ X, isAppendEv e = false) (hr : isAppendEv r = false)
    (hres : isResolvedEv r = true) : appendAfterResolve (X ++ r :: Y) := by
  intro i hi happ
  rcases lt_trichotomy i X.length with h | h | h
  · exfalso
    have : evAt (X ++ r :: Y) i = X.getD i (Event.delayMs 0) :=
      getD_append_lt X (r :: Y) i (Event.delayMs 0) h
    rw [this, hX _ (getD_mem X i (Event.delayMs 0) h)] at happ
    cases happ
  · exfalso
    have : evAt (X ++ r :: Y) i = r := by
      rw [evAt, h, getD_append_len]
    rw [this, hr] at happ
    cases happ
  · refine ⟨X.length, h, ?_⟩
    rw [evAt, getD_append_len]
    exact hres

/-- Characterization of a failed retry run: the search returns none
exactly when every attempt in the window fails. -/
lemma firstSuccess_none_iff (ntp : Nat → Bool) :
    ∀ f k, firstSuccess ntp f k = none ↔
      ∀ j, k ≤ j → j < k + f → ntp j = false := by
  intro f
  induction f with
  | zero =>
    intro k
    constructor
    · intro _ j h1 h2
      omega
    · intro _
      rfl
  | succ f ih =>
    intro k
    constructor
    · intro hnone j hkj hjf
      unfold firstSuccess at hnone
      by_cases h : ntp k = true
      · simp [h] at hnone
      · simp [h] at hnone
        rcases Nat.eq_or_lt_of_le hkj with rfl | hlt
        · simpa using h
        · exact (ih (k + 1)).mp hnone j hlt (by omega)
    · intro hall
      unfold firstSuccess
      have hk : ntp k = false := hall k (le_refl _) (by omega)
      simp [hk]
      exact (ih (k + 1)).mpr (fun j h1 h2 => hall j (by omega) (by omega))

/-- Characterization of a successful retry run: the returned index is the
first success and lies inside the window. -/
lemma firstSuccess_some (ntp : Nat → Bool) :
    ∀ f k r, firstSuccess ntp f k = some r →
      ntp r = true ∧ k ≤ r ∧ r < k + f ∧
        ∀ j, k ≤ j → j < r → ntp j = false := by
  intro f
  induction f with
  | zero =>
    intro k r h
    simp [firstSuccess] at h
  | succ f ih =>
    intro k r h
    unfold firstSuccess at h
    by_cases hk : ntp k = true
    · simp [hk] at h
      subst h
      exact ⟨hk, le_refl _, by omega, fun j h1 h2 => absurd h2 (by omega)⟩
    · simp [hk] at h
      obtain ⟨h1, h2, h3, h4⟩ := ih (k + 1) r h
      refine ⟨h1, by omega, by omega, fun j hj1 hj2 => ?_⟩
      rcases Nat.eq_or_lt_of_le hj1 with rfl | hlt
      · simpa using hk
      · exact h4 j hlt hj2

/-- A cycle whose retry loop never succeeds within the fuel: no result
state, and the trace is the sensor read, the broadcast, and the failed
attempts. -/
lemma getReadings_none (env : CycleEnv) (fuel : Nat) (st : SysState)
    (h : firstSuccess env.ntpOk fuel 0 = none) :
    getReadingsFn env fuel st =
      (none, Event.sensorRead env.temp :: Event.broadcast env.temp ::
        stuckTrace fuel) := by
  simp [getReadingsFn, getTimeStampFn, h]

/-- Shape of a completed cycle: the sensor read, the broadcast, the retry
trace, the resolution event, and the append events, with the state updated
through midState and appendFile. -/
lemma getReadings_some (env : CycleEnv) (fuel : Nat) (st : SysState)
    (k : Nat) (h : firstSuccess env.ntpOk fuel 0 = some k) :
    getReadingsFn env fuel st =
      (some ({ midState env st with
                 dataMessage := lineOf env st,
                 file := (appendFileFn env.openOk env.writeOk st.file
                   (lineOf env st)).1 }),
        Event.sensorRead env.temp :: Event.broadcast env.temp ::
          (retryTrace k ++ Event.timestampResolved (extractDay env.fdate)
              (extractTime env.fdate) ::
            (appendFileFn env.openOk env.writeOk st.file
              (lineOf env st)).2.2)) := by
  simp [getReadingsFn, getTimeStampFn, h, logSDCardFn, midState, lineOf]

/-- The events of one appendFile call: one append event with the outcome
of the operation, followed by one diagnostic. -/
lemma appendFile_shape (o w : Bool) (f : Option Str) (m : Str) :
    ∃ ok d, (appendFileFn o w f m).2.2 = [Event.append m ok, Event.diag d] := by
  cases o with
  | false => exact ⟨false, diagOpenAppendFail, rfl⟩
  | true =>
    cases w with
    | true => exact ⟨true, diagMsgAppended, rfl⟩
    | false => exact ⟨false, diagAppendFail, rfl⟩

/-- A failed appendFile call leaves the file unchanged, reports failure,
and emits the append event with a failure outcome plus a diagnostic. -/
lemma appendFile_fail (o w : Bool) (f : Option Str) (m : Str)
    (h : o = false ∨ w = false) :
    (appendFileFn o w f m).1 = f ∧ (appendFileFn o w f m).2.1 = false ∧
      ∃ d, (appendFileFn o w f m).2.2 =
        [Event.append m false, Event.diag d] := by
  rcases h with h | h
  · subst h
    exact ⟨rfl, rfl, diagOpenAppendFail, rfl⟩
  · subst h
    cases o with
    | false => exact ⟨rfl, rfl, diagOpenAppendFail, rfl⟩
    | true => exact ⟨rfl, rfl, diagAppendFail, rfl⟩

/-- A successful appendFile call extends the file with the message. -/
lemma appendFile_good (f : Option Str) (m : Str) :
    appendFileFn true true f m = (some (f.getD [] ++ m), true,
      [Event.append m true, Event.diag diagMsgAppended]) := rfl

/-- appendFile only ever extends the file content: whatever was stored
before the call is still stored, unchanged, after it. -/
lemma appendFile_extends (o w : Bool) (f : Option Str) (m : Str) :
    ∃ t, ((appendFileFn o w f m).1).getD [] = f.getD [] ++ t := by
  cases o with
  | false => exact ⟨[], by simp [appendFileFn]⟩
  | true =>
    cases w with
    | true => exact ⟨m, by simp [appendFileFn]⟩
    | false => exact ⟨[], by simp [appendFileFn]⟩

/-- A completed cycle never changes the reading identifier. -/
lemma cycle_id_preserved (env : CycleEnv) (fuel : Nat) (st st2 : SysState)
    (h : (getReadingsFn env fuel st).1 = some st2) :
    st2.readingID = st.readingID := by
  rcases hfs : firstSuccess env.ntpOk fuel 0 with _ | k
  · rw [getReadings_none env fuel st hfs] at h
    cases h
  · rw [getReadings_some env fuel st k hfs] at h
    cases h
    simp [midState]

/-- Every append event of one cycle carries exactly the data line built by
logSDCard from the state at cycle entry. -/
lemma cycle_append_line (env : CycleEnv) (fuel : Nat) (st : SysState)
    (line : Str) (ok : Bool)
    (h : Event.append line ok ∈ (getReadingsFn env fuel st).2) :
    line = lineOf env st := by
  rcases hfs : firstSuccess env.ntpOk fuel 0 with _ | k
  · rw [getReadings_none env fuel st hfs] at h
    simp at h
    rcases mem_stuckTrace h with h | h <;> cases h
  · rw [getReadings_some env fuel st k hfs] at h
    obtain ⟨ok2, d, hshape⟩ :=
      appendFile_shape env.openOk env.writeOk st.file (lineOf env st)
    rw [hshape] at h
    simp at h
    rcases h with h | h
    · rcases mem_retryTrace h with h | h | h <;> cases h
    · exact h.1

/-- If some attempt within the fuel succeeds, the retry search succeeds. -/
lemma firstSuccess_isSome (ntp : Nat → Bool) (f : Nat)
    (h : ∃ k, k < f ∧ ntp k = true) :
    ∃ r, firstSuccess ntp f 0 = some r := by
  rcases hfs : firstSuccess ntp f 0 with _ | r
  · obtain ⟨k, hk, hnt⟩ := h
    have := (firstSuccess_none_iff ntp f 0).mp hfs k (by omega) (by omega)
    rw [this] at hnt
    cases hnt
  · exact ⟨r, rfl⟩

/-- loop() in terms of the result of getReadings: the fixed delay event is
appended exactly when the cycle completes. -/
lemma loopFn_eq (env : CycleEnv) (fuel : Nat) (st : SysState) :
    loopFn env fuel st =
      match (getReadingsFn env fuel st).1 with
      | none => (none, (getReadingsFn env fuel st).2)
      | some st1 =>
        (some st1, (getReadingsFn env fuel st).2 ++ [Event.delayMs 10000]) := by
  unfold loopFn
  rcases h : getReadingsFn env fuel st with ⟨res, evs⟩
  cases res <;> simp

/-- Unfolding of a run whose first cycle is stuck in the retry loop. -/
lemma runCycles_succ_none (fuel : Nat) (cenvs : Nat → CycleEnv) (n : Nat)
    (st : SysState) (h : (getReadingsFn (cenvs 0) fuel st).1 = none) :
    runCycles fuel cenvs (n + 1) st =
      (none, (getReadingsFn (cenvs 0) fuel st).2) := by
  have hl := loopFn_eq (cenvs 0) fuel st
  rw [h] at hl
  simp [runCycles, hl]

/-- Unfolding of a run whose first cycle completes: the remaining cycles
run from the new state and the traces concatenate. -/
lemma runCycles_succ_some (fuel : Nat) (cenvs : Nat → CycleEnv) (n : Nat)
    (st st1 : SysState) (h : (getReadingsFn (cenvs 0) fuel st).1 = some st1) :
    runCycles fuel cenvs (n + 1) st =
      ((runCycles fuel (fun i => cenvs (i + 1)) n st1).1,
        ((getReadingsFn (cenvs 0) fuel st).2 ++ [Event.delayMs 10000]) ++
          (runCycles fuel (fun i => cenvs (i + 1)) n st1).2) := by
  have hl := loopFn_eq (cenvs 0) fuel st
  rw [h] at hl
  simp [runCycles, hl]

/-- The data line of a cycle starts with the decimal reading identifier
followed by a comma. -/
lemma lineOf_decomp (env : CycleEnv) (st : SysState) :
    lineOf env st = intToStr st.readingID ++ ',' ::
      (extractDay env.fdate ++ ',' ::
        (extractTime env.fdate ++ ',' :: (env.temp ++ crlf))) := rfl

/-- Across any number of cycles the reading identifier never changes, and
every append event carries a line starting with the decimal identifier of
the state the run was entered with. -/
lemma runCycles_id (fuel : Nat) : ∀ n (cenvs : Nat → CycleEnv) (st : SysState),
    (∀ st2, (runCycles fuel cenvs n st).1 = some st2 →
      st2.readingID = st.readingID) ∧
    (∀ line ok, Event.append line ok ∈ (runCycles fuel cenvs n st).2 →
      ∃ rest, line = intToStr st.readingID ++ ',' :: rest) := by
  intro n
  induction n with
  | zero =>
    intro cenvs st
    constructor
    · intro st2 h
      simp [runCycles] at h
      rw [h]
    · intro line ok h
      simp [runCycles] at h
  | succ n ih =>
    intro cenvs st
    rcases hc : (getReadingsFn (cenvs 0) fuel st).1 with _ | st1
    · rw [runCycles_succ_none fuel cenvs n st hc]
      constructor
      · intro st2 h
        cases h
      · intro line ok h
        have hl := cycle_append_line (cenvs 0) fuel st line ok h
        refine ⟨extractDay (cenvs 0).fdate ++ ',' ::
          (extractTime (cenvs 0).fdate ++ ',' :: ((cenvs 0).temp ++ crlf)), ?_⟩
        rw [hl, lineOf_decomp]
    · rw [runCycles_succ_some fuel cenvs n st st1 hc]
      have hid1 := cycle_id_preserved (cenvs 0) fuel st st1 hc
      obtain ⟨ih1, ih2⟩ := ih (fun i => cenvs (i + 1)) st1
      constructor
      · intro st2 h
        simp at h
        rw [ih1 st2 h, hid1]
      · intro line ok h
        simp at h
        rcases h with h | h
        · have hl := cycle_append_line (cenvs 0) fuel st line ok h
          refine ⟨extractDay (cenvs 0).fdate ++ ',' ::
            (extractTime (cenvs 0).fdate ++ ',' :: ((cenvs 0).temp ++ crlf)), ?_⟩
          rw [hl, lineOf_decomp]
        · obtain ⟨rest, hr⟩ := ih2 line ok h
          rw [hid1] at hr
          exact ⟨rest, hr⟩

/-- A run of n cycles that all complete with successful appends extends
the stored file by exactly the n data lines, one per cycle, in order, and
leaves the reading identifier unchanged. -/
lemma runCycles_file (fuel : Nat) : ∀ n (cenvs : Nat → CycleEnv)
    (st : SysState) (c : Str), st.file = some c →
    (∀ i, i < n → goodCycle fuel (cenvs i)) →
    ∃ st2 evs, runCycles fuel cenvs n st = (some st2, evs) ∧
      st2.file = some (c ++ logLines st.readingID cenvs n) ∧
      st2.readingID = st.readingID := by
  intro n
  induction n with
  | zero =>
    intro cenvs st c hc _
    exact ⟨st, [], by simp [runCycles], by simp [logLines, hc], rfl⟩
  | succ n ih =>
    intro cenvs st c hc hgood
    obtain ⟨hntp, hopen, hwrite⟩ := hgood 0 (by omega)
    obtain ⟨r, hr⟩ := firstSuccess_isSome _ _ hntp
    have hsome := getReadings_some (cenvs 0) fuel st r hr
    have h1 : (getReadingsFn (cenvs 0) fuel st).1 =
        some ({ midState (cenvs 0) st with
                  dataMessage := lineOf (cenvs 0) st,
                  file := (appendFileFn (cenvs 0).openOk (cenvs 0).writeOk
                    st.file (lineOf (cenvs 0) st)).1 }) := by
      rw [hsome]
    have h2 : ∃ st1, (getReadingsFn (cenvs 0) fuel st).1 = some st1 ∧
        st1.file = some (c ++ lineOf (cenvs 0) st) ∧
        st1.readingID = st.readingID := by
      refine ⟨_, h1, ?_, ?_⟩ <;>
        simp [midState, hopen, hwrite, appendFile_good, hc]
    obtain ⟨st1, hc1, hfile1, hid1⟩ := h2
    obtain ⟨st2, evs2, hrun, hfile, hid⟩ :=
      ih (fun i => cenvs (i + 1)) st1 (c ++ lineOf (cenvs 0) st) hfile1
        (fun i hi => hgood (i + 1) (by omega))
    refine ⟨st2,
      ((getReadingsFn (cenvs 0) fuel st).2 ++ [Event.delayMs 10000]) ++ evs2,
      ?_, ?_, ?_⟩
    · rw [runCycles_succ_some fuel cenvs n st st1 hc1, hrun]
    · rw [hfile, hid1]
      simp [logLines, lineOf, List.append_assoc]
    · rw [hid, hid1]

/-- The sensor-read event is always the first event of a cycle. -/
lemma sensor_mem_getReadings (env : CycleEnv) (fuel : Nat) (st : SysState) :
    Event.sensorRead env.temp ∈ (getReadingsFn env fuel st).2 := by
  simp [getReadingsFn]

/-- The sensor-read event occurs in every loop() invocation. -/
lemma sensor_mem_loop (env : CycleEnv) (fuel : Nat) (st : SysState) :
    Event.sensorRead env.temp ∈ (loopFn env fuel st).2 := by
  rw [loopFn_eq]
  rcases h : (getReadingsFn env fuel st).1 with _ | st1 <;>
    simp [sensor_mem_getReadings]

/-- A run of at least one cycle contains the first sensor-read event. -/
lemma sensor_mem_runCycles (fuel : Nat) (cenvs : Nat → CycleEnv) (n : Nat)
    (st : SysState) (h : 1 ≤ n) :
    Event.sensorRead ((cenvs 0).temp) ∈ (runCycles fuel cenvs n st).2 := by
  cases n with
  | zero => omega
  | succ n =>
    rcases hc : (getReadingsFn (cenvs 0) fuel st).1 with _ | st1
    · rw [runCycles_succ_none fuel cenvs n st hc]
      exact sensor_mem_getReadings (cenvs 0) fuel st
    · rw [runCycles_succ_some fuel cenvs n st st1 hc]
      simp [sensor_mem_getReadings]

/-- An early return of setup() leaves the state untouched and reports
incomplete initialization. -/
lemma setup_bad (benv : BootEnv) (st : SysState)
    (h : benv.spiffsOk = false ∨ benv.sdOk = false ∨
      benv.cardPresent = false) :
    (setupFn benv st).1 = st ∧ (setupFn benv st).2.1 = false := by
  unfold setupFn
  rcases h with h | h | h
  · simp [h]
  · rcases hs : benv.spiffsOk <;> simp [h, hs]
  · rcases hs : benv.spiffsOk <;> rcases hd : benv.sdOk <;> simp [h, hs, hd]

/-- A completed setup() increments the reading identifier exactly once. -/
lemma setup_good_id (benv : BootEnv) (st : SysState)
    (h1 : benv.spiffsOk = true) (h2 : benv.sdOk = true)
    (h3 : benv.cardPresent = true) :
    ((setupFn benv st).1).readingID = st.readingID + 1 ∧
      (setupFn benv st).2.1 = true := by
  unfold setupFn
  rcases hf : st.file with _ | c <;> simp [h1, h2, h3, hf]

/-- A completed setup() on an absent log file writes exactly the header. -/
lemma setup_good_file_none (benv : BootEnv) (st : SysState)
    (h1 : benv.spiffsOk = true) (h2 : benv.sdOk = true)
    (h3 : benv.cardPresent = true) (h4 : benv.hdrOpenOk = true)
    (h5 : benv.hdrWriteOk = true) (hf : st.file = none) :
    ((setupFn benv st).1).file = some headerStr := by
  unfold setupFn writeFileFn
  simp [h1, h2, h3, h4, h5, hf]

/-- A completed setup() on an existing log file leaves it unchanged. -/
lemma setup_good_file_some (benv : BootEnv) (st : SysState) (c : Str)
    (h1 : benv.spiffsOk = true) (h2 : benv.sdOk = true)
    (h3 : benv.cardPresent = true) (hf : st.file = some c) :
    ((setupFn benv st).1).file = some c := by
  unfold setupFn
  simp [h1, h2, h3, hf]

/-- setup() emits only serial diagnostics, never append events. -/
lemma setup_trace_diag (benv : BootEnv) (st : SysState) :
    ∀ e ∈ (setupFn benv st).2.2, ∃ d, e = Event.diag d := by
  unfold setupFn writeFileFn
  rcases h1 : benv.spiffsOk <;> rcases h2 : benv.sdOk <;>
    rcases h3 : benv.cardPresent <;> rcases hf : st.file with _ | c <;>
    rcases h4 : benv.hdrOpenOk <;> rcases h5 : benv.hdrWriteOk <;> simp

/-- Taking exactly the length of the left part of a concatenation. -/
lemma take_len_append {α : Type} (l₁ l₂ : List α) :
    (l₁ ++ l₂).take l₁.length = l₁ := by
  induction l₁ with
  | nil => rfl
  | cons a t ih => simp [ih]

/-- Dropping exactly the length of the left part of a concatenation. -/
lemma drop_len_append {α : Type} (l₁ l₂ : List α) :
    (l₁ ++ l₂).drop l₁.length = l₂ := by
  induction l₁ with
  | nil => rfl
  | cons a t ih => simp [ih]

/-- dropLast pushes under a cons with a nonempty tail. -/
lemma dropLast_cons_ne {α : Type} (x : α) (l : List α) (h : l ≠ []) :
    (x :: l).dropLast = x :: l.dropLast := by
  cases l with
  | nil => cases h rfl
  | cons b t => rfl

/-- dropLast only affects the right part of a concatenation when that part
is nonempty. -/
lemma dropLast_append_ne {α : Type} (l₁ l₂ : List α) (h : l₂ ≠ []) :
    (l₁ ++ l₂).dropLast = l₁ ++ l₂.dropLast := by
  induction l₁ with
  | nil => rfl
  | cons x t ih =>
    have ht : t ++ l₂ ≠ [] := by
      intro e
      rw [List.append_eq_nil] at e
      exact h e.2
    simp only [List.cons_append]
    rw [dropLast_cons_ne x (t ++ l₂) ht, ih]

/-- Taking all but the last element is dropLast. -/
lemma take_pred_eq_dropLast {α : Type} (l : List α) :
    l.take (l.length - 1) = l.dropLast := by
  induction l with
  | nil => rfl
  | cons a t ih =>
    cases t with
    | nil => rfl
    | cons b u =>
      have h1 : (a :: b :: u).length - 1 = u.length + 1 := by simp
      rw [h1]
      show a :: (b :: u).take u.length = (a :: b :: u).dropLast
      have h2 : (b :: u).length - 1 = u.length := by simp
      rw [← h2, ih]
      rfl

/-- indexOf finds the position of the separator when the part before it is
free of the separator character. -/
lemma indexOfC_split (pre post : Str) (h : 'T' ∉ pre) :
    indexOfC 'T' (pre ++ 'T' :: post) = (pre.length : Int) := by
  induction pre with
  | nil => simp [indexOfC]
  | cons a t ih =>
    rw [List.mem_cons, not_or] at h
    obtain ⟨ha, ht⟩ := h
    have ihe := ih ht
    have hstep : indexOfC 'T' ((a :: t) ++ 'T' :: post) =
        if a = 'T' then 0
        else if indexOfC 'T' (t ++ 'T' :: post) < 0 then -1
        else indexOfC 'T' (t ++ 'T' :: post) + 1 := rfl
    rw [hstep, ihe, if_neg (fun e => ha e.symm), if_neg (by omega)]
    simp

/-- The extracted date is exactly the part before the first separator. -/
lemma extractDay_split (pre post : Str) (h : 'T' ∉ pre)
    (hlen : (pre ++ 'T' :: post).length < 4294967296) :
    extractDay (pre ++ 'T' :: post) = pre := by
  unfold extractDay splitT
  rw [indexOfC_split pre post h]
  have hp : pre.length < 4294967296 := by
    simp [List.length_append] at hlen
    omega
  have h0 : asU32 0 = 0 := rfl
  have hA : asU32 (pre.length : Int) = pre.length := by
    unfold asU32
    omega
  rw [h0, hA]
  unfold substringU
  have hle : pre.length ≤ (pre ++ 'T' :: post).length := by
    simp [List.length_append]
  have hpos : ¬ ((pre ++ 'T' :: post).length ≤ min 0 pre.length) := by
    simp [List.length_append]
  rw [if_neg hpos]
  simp [Nat.min_eq_left hle, take_len_append]

/-- The extracted time is the part after the first separator with the last
character removed, provided something follows the separator. -/
lemma extractTime_split (pre post : Str) (h : 'T' ∉ pre) (hne : post ≠ [])
    (hlen : (pre ++ 'T' :: post).length < 4294967296) :
    extractTime (pre ++ 'T' :: post) = post.dropLast := by
  unfold extractTime splitT
  rw [indexOfC_split pre post h]
  have hlens : (pre ++ 'T' :: post).length = pre.length + post.length + 1 := by
    simp [List.length_append]
    omega
  have hpost1 : 1 ≤ post.length := by
    cases post with
    | nil => cases hne rfl
    | cons b u => simp
  have hA : asU32 ((pre.length : Int) + 1) = pre.length + 1 := by
    unfold asU32
    omega
  have hB : u32sub1 ((pre ++ 'T' :: post).length) =
      (pre ++ 'T' :: post).length - 1 := by
    unfold u32sub1
    omega
  rw [hA, hB]
  unfold substringU
  have hmin : min (pre.length + 1) ((pre ++ 'T' :: post).length - 1) =
      pre.length + 1 := Nat.min_eq_left (by omega)
  have hmax : max (pre.length + 1) ((pre ++ 'T' :: post).length - 1) =
      (pre ++ 'T' :: post).length - 1 := Nat.max_eq_right (by omega)
  rw [hmin, hmax, if_neg (by omega)]
  have hmin2 : min ((pre ++ 'T' :: post).length - 1)
      ((pre ++ 'T' :: post).length) = (pre ++ 'T' :: post).length - 1 :=
    Nat.min_eq_left (by omega)
  rw [hmin2, take_pred_eq_dropLast, dropLast_append_ne pre ('T' :: post)
    (by simp), dropLast_cons_ne 'T' post hne]
  have : pre ++ 'T' :: post.dropLast = (pre ++ ['T']) ++ post.dropLast := by
    simp
  rw [this, show pre.length + 1 = (pre ++ ['T']).length from by simp,
    drop_len_append]

/-- The retry-failure trace contains no append events. -/
lemma countP_append_stuckTrace (f : Nat) :
    List.countP isAppendEv (stuckTrace f) = 0 := by
  induction f with
  | zero => rfl
  | succ f ih => simp [stuckTrace, List.countP_cons, isAppendEv, ih]

/-- The successful retry trace contains no append events. -/
lemma countP_append_retryTrace (k : Nat) :
    List.countP isAppendEv (retryTrace k) = 0 := by
  simp [retryTrace, List.countP_append, countP_append_stuckTrace,
    List.countP_cons, isAppendEv]

/-- Claim C4: the retry loop of the Time Resolver is unbounded: it returns
(allowing the cycle to proceed) exactly when some update attempt within
the considered window succeeds, it issues one forced re-request per failed
attempt, it resolves at the first success, and if no update ever succeeds
it never returns. -/
theorem C4_retry_unbounded (env : CycleEnv) (fuel : Nat) (st : SysState) :
    ((getTimeStampFn env fuel st).1 ≠ none ↔
      ∃ k, k < fuel ∧ env.ntpOk k = true) ∧
    (∀ k, firstSuccess env.ntpOk fuel 0 = some k →
      env.ntpOk k = true ∧ (∀ j, j < k → env.ntpOk j = false) ∧
        List.countP isForceUpdateEv ((getTimeStampFn env fuel st).2) = k) := by
  constructor
  · constructor
    · intro h
      rcases hfs : firstSuccess env.ntpOk fuel 0 with _ | k
      · exact absurd (by simp [getTimeStampFn, hfs]) h
      · obtain ⟨h1, h2, h3, h4⟩ := firstSuccess_some env.ntpOk fuel 0 k hfs
        exact ⟨k, by omega, h1⟩
    · intro h
      obtain ⟨r, hr⟩ := firstSuccess_isSome env.ntpOk fuel h
      simp [getTimeStampFn, hr]
  · intro k hfs
    obtain ⟨h1, h2, h3, h4⟩ := firstSuccess_some env.ntpOk fuel 0 k hfs
    refine ⟨h1, fun j hj => h4 j (by omega) hj, ?_⟩
    obtain ⟨ok, d, hsh⟩ := appendFile_shape env.openOk env.writeOk st.file
      (cycleMsg st.readingID (extractDay env.fdate) (extractTime env.fdate)
        st.temperature)
    simp [getTimeStampFn, hfs, logSDCardFn, hsh, List.countP_append,
      countP_force_retryTrace, List.countP_cons, isForceUpdateEv]

/-- Witness for C4 at a concrete environment whose third attempt succeeds:
the resolver returns and has issued exactly two forced re-requests. -/
theorem C4_retry_unbounded_witness :
    (getTimeStampFn w4Env 5 (coldBootState none)).1 ≠ none ∧
    List.countP isForceUpdateEv
      ((getTimeStampFn w4Env 5 (coldBootState none)).2) = 2 :=
  ⟨(C4_retry_unbounded w4Env 5 (coldBootState none)).1.mpr
      ⟨2, by omega, by decide⟩,
    ((C4_retry_unbounded w4Env 5 (coldBootState none)).2 2 (by decide)).2.2⟩

/-- Claim C5: for a resolved timestamp string in the expected format, the
date output is the part strictly before the separator and the time output
is the part strictly after the separator with the final terminator
character removed; in particular "2024-05-06T14:30:00Z" yields
"2024-05-06" and "14:30:00". -/
theorem C5_split_timestamp :
    (∀ pre post : Str, 'T' ∉ pre → post ≠ [] →
      (pre ++ 'T' :: post).length < 4294967296 →
      splitFD (pre ++ 'T' :: post) = (pre, post.dropLast)) ∧
    splitFD ("2024-05-06T14:30:00Z".toList) =
      ("2024-05-06".toList, "14:30:00".toList) := by
  constructor
  · intro pre post h hne hlen
    unfold splitFD
    rw [extractDay_split pre post h hlen, extractTime_split pre post h hne hlen]
  · decide

/-- Witness for C5 at the concrete timestamp of the scenario. -/
theorem C5_split_timestamp_witness :
    splitFD ("2024-05-06".toList ++ 'T' :: "14:30:00Z".toList) =
      ("2024-05-06".toList, ("14:30:00Z".toList).dropLast) :=
  C5_split_timestamp.1 ("2024-05-06".toList) ("14:30:00Z".toList)
    (by decide) (by decide) (by decide)

/-- Claim C8: for every inbound observer frame, exactly one re-broadcast
of the last known temperature value is sent if and only if the frame is a
final, unfragmented, complete text frame, regardless of the payload
content; any other frame triggers no broadcast. -/
theorem C8_ws_echo (info : FrameInfo) (data data2 : Str) (len : Nat)
    (st : SysState) :
    List.countP isBroadcastEv (handleWebSocketMessage info data len st) =
      (if info.final = true ∧ info.index = 0 ∧ info.len = len ∧
          info.opcode = WS_TEXT then 1 else 0) ∧
    handleWebSocketMessage info data len st =
      handleWebSocketMessage info data2 len st ∧
    ∀ m, Event.broadcast m ∈ handleWebSocketMessage info data len st →
      m = st.temperature := by
  refine ⟨?_, rfl, ?_⟩
  · unfold handleWebSocketMessage
    split <;> simp [List.countP_cons, isBroadcastEv]
  · intro m hm
    unfold handleWebSocketMessage at hm
    split at hm <;> simp at hm
    exact hm

/-- Witness for C8 at a concrete complete single-frame text message. -/
theorem C8_ws_echo_witness : exTemp = wsState.temperature :=
  (C8_ws_echo exFrame exPayload exPayload 3 wsState).2.2 exTemp (by decide)

/-- Claim C1 (amended): in every cycle a record is appended to the log
only after the timestamp-resolution event of that cycle — never with an
unresolved timestamp — but the live broadcast of the cycle temperature is
emitted before, not after, timestamp resolution. -/
theorem C1_persist_after_resolve (env : CycleEnv) (fuel : Nat)
    (st : SysState) :
    appendAfterResolve ((getReadingsFn env fuel st).2) ∧
    (∀ st2, (getReadingsFn env fuel st).1 = some st2 →
      ∃ i j, i < j ∧ j < ((getReadingsFn env fuel st).2).length ∧
        isBroadcastEv (evAt ((getReadingsFn env fuel st).2) i) = true ∧
        isResolvedEv (evAt ((getReadingsFn env fuel st).2) j) = true) := by
  rcases hfs : firstSuccess env.ntpOk fuel 0 with _ | k
  · rw [getReadings_none env fuel st hfs]
    constructor
    · apply appendAfterResolve_of_no_append
      intro e he
      simp at he
      rcases he with rfl | rfl | he
      · rfl
      · rfl
      · rcases mem_stuckTrace he with rfl | rfl <;> rfl
    · intro st2 h
      cases h
  · rw [getReadings_some env fuel st k hfs]
    obtain ⟨ok, d, hsh⟩ :=
      appendFile_shape env.openOk env.writeOk st.file (lineOf env st)
    rw [hsh]
    constructor
    · have hX : ∀ e ∈ Event.sensorRead env.temp ::
          Event.broadcast env.temp :: retryTrace k, isAppendEv e = false := by
        intro e he
        simp at he
        rcases he with rfl | rfl | he
        · rfl
        · rfl
        · rcases mem_retryTrace he with rfl | rfl | rfl <;> rfl
      exact appendAfterResolve_split
        (Event.sensorRead env.temp :: Event.broadcast env.temp :: retryTrace k)
        [Event.append (lineOf env st) ok, Event.diag d]
        (Event.timestampResolved (extractDay env.fdate)
          (extractTime env.fdate)) hX rfl rfl
    · intro st2 _
      refine ⟨1, (Event.sensorRead env.temp :: Event.broadcast env.temp ::
        retryTrace k).length, ?_, ?_, rfl, ?_⟩
      · simp [retryTrace_length]
      · simp [retryTrace_length]
      · show isResolvedEv
            (((Event.sensorRead env.temp :: Event.broadcast env.temp ::
                retryTrace k) ++ Event.timestampResolved (extractDay env.fdate)
                  (extractTime env.fdate) ::
                [Event.append (lineOf env st) ok, Event.diag d]).getD
              ((Event.sensorRead env.temp :: Event.broadcast env.temp ::
                retryTrace k).length) (Event.delayMs 0)) = true
        rw [getD_append_len]
        rfl

/-- Counterexample to C1 as stated: in a concrete completed cycle the
broadcast of the cycle temperature is not preceded by any
timestamp-resolution event. -/
theorem C1_counterexample :
    ¬ broadcastOnlyAfterResolve ((getReadingsFn exCycleEnv 1
      postSetupState).2) := by decide

/-- Witness for C1 at a concrete completed cycle. -/
theorem C1_persist_after_resolve_witness :
    ∃ i j, i < j ∧
      j < ((getReadingsFn exCycleEnv 1 postSetupState).2).length ∧
      isBroadcastEv (evAt ((getReadingsFn exCycleEnv 1 postSetupState).2) i)
        = true ∧
      isResolvedEv (evAt ((getReadingsFn exCycleEnv 1 postSetupState).2) j)
        = true :=
  (C1_persist_after_resolve exCycleEnv 1 postSetupState).2 _ rfl

/-- Claim C3 (amended): every cycle is one synchronous pass executing the
stages in the order Sensor Reader, Live Notifier broadcast, Time Resolver,
Durable Log Writer, followed by the fixed 10000 ms inter-cycle delay, and
each further iteration of the loop repeats the same pass from the new
state. -/
theorem C3_cycle_order (env : CycleEnv) (fuel : Nat) (st : SysState)
    (k : Nat) (hfs : firstSuccess env.ntpOk fuel 0 = some k) :
    (∃ ok d, (getReadingsFn env fuel st).2 =
      Event.sensorRead env.temp :: Event.broadcast env.temp ::
        (retryTrace k ++ Event.timestampResolved (extractDay env.fdate)
            (extractTime env.fdate) ::
          [Event.append (lineOf env st) ok, Event.diag d])) ∧
    (loopFn env fuel st).2 =
      (getReadingsFn env fuel st).2 ++ [Event.delayMs 10000] ∧
    (∀ cenvs : Nat → CycleEnv, ∀ n st0 st1,
      (getReadingsFn (cenvs 0) fuel st0).1 = some st1 →
      runCycles fuel cenvs (n + 1) st0 =
        ((runCycles fuel (fun i => cenvs (i + 1)) n st1).1,
          ((getReadingsFn (cenvs 0) fuel st0).2 ++ [Event.delayMs 10000]) ++
            (runCycles fuel (fun i => cenvs (i + 1)) n st1).2)) := by
  refine ⟨?_, ?_, ?_⟩
  · obtain ⟨ok, d, hsh⟩ :=
      appendFile_shape env.openOk env.writeOk st.file (lineOf env st)
    refine ⟨ok, d, ?_⟩
    rw [getReadings_some env fuel st k hfs]
    simp [hsh]
  · have h1 : ∃ stx, (getReadingsFn env fuel st).1 = some stx :=
      ⟨_, by rw [getReadings_some env fuel st k hfs]⟩
    obtain ⟨stx, h1⟩ := h1
    rw [loopFn_eq, h1]
  · intro cenvs n st0 st1 h
    exact runCycles_succ_some fuel cenvs n st0 st1 h

/-- Counterexample to C3 as stated: in a concrete completed cycle the
Live Notifier broadcast is not preceded by the Durable Log Writer append,
so the claimed stage order with notification last does not hold. -/
theorem C3_counterexample :
    ¬ broadcastOnlyAfterAppend ((getReadingsFn ex2CycleEnv 1
      postSetupState).2) := by decide

/-- Witness for C3 at a concrete completed cycle. -/
theorem C3_cycle_order_witness :
    ∃ ok d, (getReadingsFn exCycleEnv 1 postSetupState).2 =
      Event.sensorRead exCycleEnv.temp :: Event.broadcast exCycleEnv.temp ::
        (retryTrace 0 ++ Event.timestampResolved (extractDay exCycleEnv.fdate)
            (extractTime exCycleEnv.fdate) ::
          [Event.append (lineOf exCycleEnv postSetupState) ok,
            Event.diag d]) :=
  (C3_cycle_order exCycleEnv 1 postSetupState 0 (by decide)).1

/-- Claim C2 evaluation: after one cold boot with a fully successful boot
environment, two loop cycles both append a data line carrying reading
identifier 1 and the counter still holds 1 afterwards — the identifier is
incremented only by setup, once per boot, and the first recorded
identifier is 1, not 0. -/
theorem C2_same_id_eval :
    ((runMainN goodBoot (fun _ => exCycleEnv) 1 2 (coldBootState none)).1).map
        (fun s => s.readingID) = some 1 ∧
    ((runMainN goodBoot (fun _ => exCycleEnv) 1 2 (coldBootState none)).1).map
        (fun s => s.file) =
      some (some (headerStr ++
        cycleMsg 1 (extractDay exFd) (extractTime exFd) exTemp ++
        cycleMsg 1 (extractDay exFd) (extractTime exFd) exTemp)) := by
  constructor <;> decide

/-- Claim C10: within a single wake session every record appended to the
log carries the same reading identifier: the counter is modified exactly
once, by setup before the first cycle, and no loop cycle modifies it;
after one cold boot every data line of the session carries identifier 1. -/
theorem C10_constant_id (benv : BootEnv) (cenvs : Nat → CycleEnv)
    (fuel n : Nat) (card : Option Str)
    (h1 : benv.spiffsOk = true) (h2 : benv.sdOk = true)
    (h3 : benv.cardPresent = true) :
    (∀ st2, (runMainN benv cenvs fuel n (coldBootState card)).1 = some st2 →
      st2.readingID = 1) ∧
    (∀ line ok, Event.append line ok ∈
        (runMainN benv cenvs fuel n (coldBootState card)).2 →
      ∃ rest, line = '1' :: ',' :: rest) := by
  have hset := setup_good_id benv (coldBootState card) h1 h2 h3
  have hid : ((setupFn benv (coldBootState card)).1).readingID = 1 := by
    rw [hset.1]
    rfl
  obtain ⟨hrc1, hrc2⟩ :=
    runCycles_id fuel n cenvs ((setupFn benv (coldBootState card)).1)
  constructor
  · intro st2 h
    have h' : (runCycles fuel cenvs n
        ((setupFn benv (coldBootState card)).1)).1 = some st2 := h
    rw [hrc1 st2 h', hid]
  · intro line ok h
    have h' : Event.append line ok ∈
        (setupFn benv (coldBootState card)).2.2 ++
          (runCycles fuel cenvs n
            ((setupFn benv (coldBootState card)).1)).2 := h
    rcases List.mem_append.mp h' with hm | hm
    · obtain ⟨dd, hdd⟩ := setup_trace_diag benv (coldBootState card) _ hm
      simp at hdd
    · obtain ⟨rest, hr⟩ := hrc2 line ok hm
      rw [hid] at hr
      exact ⟨rest, by rw [hr]; rfl⟩

/-- Witness for C10 at a concrete one-cycle run after a cold boot. -/
theorem C10_constant_id_witness :
    ∃ rest, cycleMsg 1 (extractDay exFd) (extractTime exFd) exTemp =
      '1' :: ',' :: rest :=
  (C10_constant_id goodBoot (fun _ => exCycleEnv) 1 1 none rfl rfl rfl).2
    (cycleMsg 1 (extractDay exFd) (extractTime exFd) exTemp) true (by decide)

/-- Counterexample to C6 as stated: right after a fresh boot that creates
the log file, the stored header is not the claimed header line followed by
CRLF — the source writes a trailing space before the terminator. -/
theorem C6_counterexample :
    ((runMainN goodBoot (fun _ => exCycleEnv) 1 0 (coldBootState none)).1).map
        (fun s => s.file) = some (some headerStr) ∧
    ¬ headerStr = claimedHeaderC6 := by
  constructor <;> decide

/-- Claim C6 (amended): after a boot on an absent file and N completed
cycles with successful appends, the log consists of exactly the one-time
header line — carrying a trailing space before its CRLF — written only
because the file did not already exist and before any data line, followed
by exactly the N data lines id,date,time,temperature each terminated by
CRLF; setup leaves an existing file unchanged, and an append only ever
extends the stored content, never modifying or removing what was written. -/
theorem C6_log_format (benv : BootEnv) (cenvs : Nat → CycleEnv)
    (fuel n : Nat)
    (h1 : benv.spiffsOk = true) (h2 : benv.sdOk = true)
    (h3 : benv.cardPresent = true) (h4 : benv.hdrOpenOk = true)
    (h5 : benv.hdrWriteOk = true)
    (hgood : ∀ i, i < n → goodCycle fuel (cenvs i)) :
    (∃ st2 evs, runMainN benv cenvs fuel n (coldBootState none) =
        (some st2, evs) ∧
      st2.file = some (headerStr ++ logLines 1 cenvs n)) ∧
    (∀ st c, st.file = some c → ((setupFn benv st).1).file = some c) ∧
    (∀ o w f m, ∃ t, ((appendFileFn o w f m).1).getD [] = f.getD [] ++ t) := by
  refine ⟨?_, ?_, ?_⟩
  · have hfile :=
      setup_good_file_none benv (coldBootState none) h1 h2 h3 h4 h5 rfl
    have hid : ((setupFn benv (coldBootState none)).1).readingID = 1 := by
      rw [(setup_good_id benv (coldBootState none) h1 h2 h3).1]
      rfl
    obtain ⟨st2, evs, hrun, hf, hidr⟩ :=
      runCycles_file fuel n cenvs ((setupFn benv (coldBootState none)).1)
        headerStr hfile hgood
    refine ⟨st2, (setupFn benv (coldBootState none)).2.2 ++ evs, ?_, ?_⟩
    · simp [runMainN, hrun]
    · rw [hf, hid]
  · intro st c hc
    exact setup_good_file_some benv st c h1 h2 h3 hc
  · exact appendFile_extends

/-- Witness for C6 at a concrete two-cycle run after a cold boot. -/
theorem C6_log_format_witness :
    ∃ st2 evs, runMainN goodBoot (fun _ => exCycleEnv) 1 2
        (coldBootState none) = (some st2, evs) ∧
      st2.file = some (headerStr ++ logLines 1 (fun _ => exCycleEnv) 2) :=
  (C6_log_format goodBoot (fun _ => exCycleEnv) 1 2 rfl rfl rfl rfl rfl
    (fun i hi => ⟨⟨0, by omega, rfl⟩, rfl, rfl⟩)).1

/-- Claim C7: when the append of a completed cycle fails — open failure or
failed write — the operation reports failure with no fatal error, a
diagnostic is emitted, the record is dropped with no retry (the stored
file is unchanged and the cycle performs exactly one append attempt), and
the cycle broadcast of the current value is still delivered. -/
theorem C7_append_failure (env : CycleEnv) (fuel : Nat) (st : SysState)
    (hdone : (getReadingsFn env fuel st).1 ≠ none)
    (hfail : env.openOk = false ∨ env.writeOk = false) :
    (∀ st2, (getReadingsFn env fuel st).1 = some st2 → st2.file = st.file) ∧
    (∀ line ok, Event.append line ok ∈ (getReadingsFn env fuel st).2 →
      ok = false) ∧
    (∃ d, Event.diag d ∈ (getReadingsFn env fuel st).2) ∧
    Event.broadcast env.temp ∈ (getReadingsFn env fuel st).2 ∧
    List.countP isAppendEv ((getReadingsFn env fuel st).2) = 1 := by
  rcases hfs : firstSuccess env.ntpOk fuel 0 with _ | k
  · exact absurd (by rw [getReadings_none env fuel st hfs]) hdone
  · obtain ⟨hfile, hrep, d, hsh⟩ :=
      appendFile_fail env.openOk env.writeOk st.file (lineOf env st) hfail
    rw [getReadings_some env fuel st k hfs, hsh]
    refine ⟨?_, ?_, ?_, ?_, ?_⟩
    · intro st2 h
      simp at h
      rw [← h]
      simp [midState, hfile]
    · intro line ok h
      simp at h
      rcases h with h | h
      · rcases mem_retryTrace h with h2 | h2 | h2 <;> cases h2
      · exact h.2
    · exact ⟨d, by simp⟩
    · simp
    · simp [List.countP_cons, List.countP_append, countP_append_retryTrace,
        isAppendEv]

/-- Witness for C7 at a concrete cycle whose SD open fails. -/
theorem C7_append_failure_witness :
    Event.broadcast failOpenEnv.temp ∈
      (getReadingsFn failOpenEnv 1 postSetupState).2 :=
  ((C7_append_failure failOpenEnv 1 postSetupState (by decide)
    (Or.inl rfl)).2.2.2).1

/-- Claim C9 (amended): when the asset volume, the storage volume, or the
card check fails during boot, setup returns early with the state untouched
— no header write and no sequencer increment — and reports incomplete
initialization; the runtime nevertheless still invokes the cycle loop, so
the pipeline begins executing its first cycle; recovery requires an
external reset. -/
theorem C9_boot_failure (benv : BootEnv) (st : SysState)
    (cenvs : Nat → CycleEnv) (fuel n : Nat)
    (h : benv.spiffsOk = false ∨ benv.sdOk = false ∨
      benv.cardPresent = false) (hn : 1 ≤ n) :
    (setupFn benv st).1 = st ∧ (setupFn benv st).2.1 = false ∧
    Event.sensorRead ((cenvs 0).temp) ∈
      (runMainN benv cenvs fuel n st).2 := by
  obtain ⟨h1, h2⟩ := setup_bad benv st h
  refine ⟨h1, h2, ?_⟩
  have hm := sensor_mem_runCycles fuel cenvs n ((setupFn benv st).1) hn
  exact List.mem_append.mpr (Or.inr hm)

/-- Counterexample to C9 as stated: with a failed SPIFFS mount the
pipeline still starts — the first cycle emits its sensor-read event. -/
theorem C9_counterexample :
    ¬ (∀ e ∈ (runMainN badBoot (fun _ => ntpNeverEnv) 1 1
        (coldBootState none)).2, isSensorReadEv e = false) := by decide

/-- Witness for C9 at a concrete failed boot followed by one loop cycle. -/
theorem C9_boot_failure_witness :
    (setupFn badBoot (coldBootState none)).1 = coldBootState none ∧
    (setupFn badBoot (coldBootState none)).2.1 = false ∧
    Event.sensorRead ntpNeverEnv.temp ∈
      (runMainN badBoot (fun _ => ntpNeverEnv) 1 1 (coldBootState none)).2 :=
  C9_boot_failure badBoot (coldBootState none) (fun _ => ntpNeverEnv) 1 1
    (Or.inl rfl) (by omega)

end TempLog
